import Mathlib

/-!
Verification of the GF(2^233) optimal-normal-basis arithmetic engine.

The program is a single C++ class `GF2mElement` holding a `std::vector<bool>`
of `m = 233` coefficients, together with a sparse multiplication matrix derived
from the auxiliary prime `p = 467 = 2m + 1`.  Field elements are embedded as
`List Bool`; every constructor call goes through `resize`, which models
`std::vector<bool>::resize(m, false)` (truncate when longer, pad with `false`
when shorter).  C++ `int` arithmetic on the small matrix values is embedded as
`Int` with `Int.tmod` for the C++ `%` operator (truncated remainder, which is
negative for negative dividends).
-/

namespace ONB

/-- The extension degree `m = 233` (static const int m). -/
def mVal : Nat := 233

/-- The auxiliary prime `p = 467` (static const int p). -/
def pVal : Int := 467

/-- Models `coefficients.resize(m, false)`: truncate to `m` entries when longer,
pad with `false` when shorter. -/
def resize (l : List Bool) : List Bool :=
  (l ++ List.replicate (mVal - l.length) false).take mVal

/-- The `GF2mElement(const std::vector<bool>&)` constructor: store and resize. -/
def ofCoeffs (coeffs : List Bool) : List Bool := resize coeffs

/-- The `GF2mElement(const std::string&)` constructor: walk the string from its
last character to its first, pushing `c == '1'`, then resize to `m`. -/
def ofString (bitString : String) : List Bool :=
  ofCoeffs (bitString.data.reverse.map (fun c => c == '1'))

/-- `squareONB`: `squared[m-1] = a[0]` and `squared[i] = a[i+1]` for `i < m-1`. -/
def squareONB (a : List Bool) : List Bool :=
  ofCoeffs ((List.range mVal).map (fun i =>
    if i = mVal - 1 then a.getD 0 false else a.getD (i + 1) false))

/-- The stream-output operator: print coefficient `m-1` first, down to `0`. -/
def serialize (element : List Bool) : String :=
  ⟨(List.range mVal).reverse.map (fun i => if element.getD i false then '1' else '0')⟩

/-- `mod_pow_2(exponent, mod)`: `result = 1`, then `exponent` times
`result = (result * 2) % mod`.  (The memo cache has no semantic effect.) -/
def mod_pow_2 (exponent : Nat) (mod : Int) : Int :=
  (List.range exponent).foldl (fun result _ => (result * 2).tmod mod) 1

/-- `compute_matrix_element(i, j)`: entry is 1 when one of the four signed
combinations of `2^i mod p` and `2^j mod p`, each put through the C++ `%`
operator, compares equal to `1` or to `-466`. -/
def compute_matrix_element (i j : Nat) : Int :=
  let mod := pVal
  let pow_i := mod_pow_2 i mod
  let pow_j := mod_pow_2 j mod
  let results : List Int :=
    [(pow_i + pow_j).tmod mod, (pow_i - pow_j + mod).tmod mod,
     (-pow_i + pow_j + mod).tmod mod, (-pow_i - pow_j + mod).tmod mod]
  if results.any (fun result => result == 1 || result == -466) then 1 else 0

/-- Computation-friendly residue `2 ^ e mod 467`, proved equal to
`mod_pow_2 e 467` in `mod_pow_2_eq_powN`. -/
def powN (e : Nat) : Nat := Nat.shiftLeft 1 e % 467

/-- Computation-friendly form of the `compute_matrix_element` test, in pure
`Nat` arithmetic; `cme_one_iff_fastCheck` proves it equivalent. -/
def fastCheck (u v : Nat) : Bool :=
  ((u + v) % 467 == 1) || ((u + 467 - v) % 467 == 1) ||
    ((v + 467 - u) % 467 == 1) || (u + v == 466)

/-- The inner `j` loop of `createMultiplicativeMatrix` for a fixed row `i`:
collect `(i, j)` for each match, stopping the row after the second match. -/
def rowScan (i : Nat) : List Nat → Nat → List (Nat × Nat)
  | [], _ => []
  | j :: js, prevVal =>
    if compute_matrix_element i j = 1 then
      if prevVal + 1 = 2 then [(i, j)] else (i, j) :: rowScan i js (prevVal + 1)
    else rowScan i js prevVal

/-- `rowScan` with the `fastCheck` entry test (row power `u` precomputed). -/
def fastRowScan (i u : Nat) : List Nat → Nat → List (Nat × Nat)
  | [], _ => []
  | j :: js, prevVal =>
    if fastCheck u (powN j) then
      if prevVal + 1 = 2 then [(i, j)] else (i, j) :: fastRowScan i u js (prevVal + 1)
    else fastRowScan i u js prevVal

/-- `createMultiplicativeMatrix()`: scan rows `i = 0..m-1`, each row scanning
columns `j = 0..m-1` and keeping at most its first two matches. -/
def createMultiplicativeMatrix : List (Nat × Nat) :=
  ((List.range mVal).map (fun i => rowScan i (List.range mVal) 0)).flatten

/-- `createMultiplicativeMatrix` with `fastRowScan`. -/
def fastCreate : List (Nat × Nat) :=
  ((List.range mVal).map (fun i => fastRowScan i (powN i) (List.range mVal) 0)).flatten

/-- `transposeToVector()`: `transposed[i] = coefficients[m - 1 - i]`. -/
def transposeToVector (self : List Bool) : List Bool :=
  (List.range mVal).map (fun i => self.getD (mVal - 1 - i) false)

/-- `multiplyWithMatrix(one_positions)`: start from `m` falses and for each
marked `(i, j)` do `result[i] = result[i] ^ coefficients[m - 1 - j]`. -/
def multiplyWithMatrix (self : List Bool) (one_positions : List (Nat × Nat)) : List Bool :=
  one_positions.foldl
    (fun result e =>
      result.set e.1 ((result.getD e.1 false) ^^ (self.getD (mVal - 1 - e.2) false)))
    (List.replicate mVal false)

/-- `multiplyWithTransposed(other)`: `result ^= coefficients[i]` for each `i`
with `other[i]` set. -/
def multiplyWithTransposed (self other : List Bool) : Bool :=
  (List.range mVal).foldl
    (fun result i => if other.getD i false then result ^^ (self.getD i false) else result)
    false

/-- `cyclicLeftShift(positions)`: `shifted[(i + positions) % size] = coefficients[i]`
for every `i`, then the element constructor (which resizes to `m`). -/
def cyclicLeftShift (self : List Bool) (positions : Nat) : List Bool :=
  let size := self.length
  ofCoeffs ((List.range size).foldl
    (fun shifted i => shifted.set ((i + positions) % size) (self.getD i false))
    (List.replicate size false))

/-- One round of `multiplyAndShift`: apply the matrix to `a`, transpose `b`,
and take their inner product.  This is exactly the loop body's output bit. -/
def roundBit (matrixA : List (Nat × Nat)) (a b : List Bool) : Bool :=
  multiplyWithTransposed (ofCoeffs (multiplyWithMatrix a matrixA)) (transposeToVector b)

/-- The `step` loop of `multiplyAndShift`: push one output character per round
and rotate both operands left by one. -/
def masLoop (matrixA : List (Nat × Nat)) :
    Nat → List Bool → List Bool → List Char → List Char
  | 0, _, _, resultVector => resultVector
  | steps + 1, a, b, resultVector =>
    let multiplicationResult := roundBit matrixA a b
    masLoop matrixA steps (cyclicLeftShift a 1) (cyclicLeftShift b 1)
      (resultVector ++ [if multiplicationResult then '1' else '0'])

/-- `multiplyAndShift(a, b, steps)`: build the matrix once, run the rounds,
return the collected characters as a string. -/
def multiplyAndShift (a b : List Bool) (steps : Nat) : String :=
  ⟨masLoop createMultiplicativeMatrix steps a b []⟩

/-- `operator*`: run `multiplyAndShift(a, b, 233)`, read the result string in
reverse into coefficients, and construct the element. -/
def mul (a b : List Bool) : List Bool :=
  ofCoeffs (((multiplyAndShift a b 233).data.reverse).map (fun c => c == '1'))

/-- The `for (j = 0; j < k; ++j) beta = beta.squareONB()` inner loop of
`inverse`: apply `squareONB` `k` times. -/
def squareIter : Nat → List Bool → List Bool
  | 0, beta => beta
  | k + 1, beta => squareIter k (squareONB beta)

/-- `inverse()`: the fixed Itoh-Tsujii addition chain driven by the 8-bit
constant "11101000" (`m - 1 = 232`), followed by one final squaring. -/
def inverse (a : List Bool) : List Bool :=
  let m_binary := "11101000"
  let step := fun (st : List Bool × Nat) (i : Nat) =>
    let beta := st.1
    let k := st.2
    let original_beta := beta
    let beta := mul (squareIter k beta) original_beta
    let k := k * 2
    if m_binary.data.getD i '0' == '1' then (mul (squareONB beta) a, k + 1) else (beta, k)
  squareONB ((List.range' 1 7).foldl step (a, 1)).1

/-- The zero element: 233 `false` coefficients. -/
def zeroElt : List Bool := List.replicate mVal false

/-- The multiplicative identity of this basis: 233 `true` coefficients (the
`neutral_coeffs` initial value of `power`). -/
def identityElt : List Bool := List.replicate mVal true

/-- The element with coefficient 0 set and all others clear. -/
def e0elt : List Bool := true :: List.replicate 232 false

/-- The element with coefficient 232 set and all others clear. -/
def e232elt : List Bool := List.replicate 232 false ++ [true]

/-- Iterated `cyclicLeftShift _ 1`, innermost application first, mirroring the
per-round rotation of the operands in `multiplyAndShift`. -/
def rotIter : Nat → List Bool → List Bool
  | 0, a => a
  | r + 1, a => rotIter r (cyclicLeftShift a 1)

/-- Parity of a count as a boolean. -/
def parityB (n : Nat) : Bool := n % 2 == 1

/-- Duplicate every entry of a list in place: `[a, b] ↦ [a, a, b, b]`. -/
def dupEach : List α → List α
  | [] => []
  | a :: t => a :: a :: dupEach t

/-- The unordered pair of coefficient indices that a matrix entry `(i, j)`
reads during round 0 of a squaring product `a * a`, encoded as the single
number `min * 233 + max`. -/
def keyFun (e : Nat × Nat) : Nat :=
  if 232 - e.2 ≤ 232 - e.1 then (232 - e.2) * 233 + (232 - e.1)
  else (232 - e.1) * 233 + (232 - e.2)

/-- Modelled from the claim wording for C4: the four signed combinations
`u+v`, `u-v`, `-u+v`, `-u-v` of `u = 2^i mod 467` and `v = 2^j mod 467`. -/
def specCombinations (i j : Nat) : List Int :=
  let u : Int := 2 ^ i % 467
  let v : Int := 2 ^ j % 467
  [u + v, u - v, -u + v, -u - v]

/-- A 234-character bit string: '1' followed by 233 '0's (used to exhibit the
constructor's silent truncation). -/
def longString : String := ⟨'1' :: List.replicate 233 '0'⟩

/-- The all-zero 233-character bit string. -/
def allZeroString : String := ⟨List.replicate 233 '0'⟩

/-- Modelled from the claim wording for C4: some combination is congruent
mod 467 to 1 or to 466 (`%` here is mathematical `Int.emod`, with result in
`[0, 467)`). -/
def specMatrixEntryHolds (i j : Nat) : Prop :=
  ∃ c ∈ specCombinations i j, c % 467 = 1 ∨ c % 467 = 466

/-- Insertion into a sorted list under an arbitrary boolean comparison;
structural recursion so that the kernel can evaluate it. -/
def insertLe {α : Type} (le : α → α → Bool) (a : α) : List α → List α
  | [] => [a]
  | b :: t => if le a b then a :: b :: t else b :: insertLe le a t

/-- Insertion sort under an arbitrary boolean comparison; used only to check
permutation facts about the concrete multiplication matrix by evaluation. -/
def sortLe {α : Type} (le : α → α → Bool) : List α → List α
  | [] => []
  | a :: t => insertLe le a (sortLe le t)

/-- The concrete value of `createMultiplicativeMatrix` for `m = 233`,
`p = 467` (465 entries; row 0 contributes a single entry).  Proved equal to
the program's matrix in `matrix_lit`. -/
def litMatrix : List (Nat × Nat) := [
  (0, 1), (1, 0), (1, 217), (2, 41), (2, 217), (3, 148), (3, 201), (4, 25),
  (4, 51), (5, 125), (5, 209), (6, 71), (6, 116), (7, 61), (7, 94), (8, 76),
  (8, 174), (9, 106), (9, 143), (10, 101), (10, 178), (11, 172), (11, 206), (12, 75),
  (12, 187), (13, 95), (13, 118), (14, 44), (14, 155), (15, 56), (15, 163), (16, 17),
  (16, 18), (17, 16), (17, 57), (18, 16), (18, 164), (19, 57), (19, 157), (20, 46),
  (20, 170), (21, 205), (21, 229), (22, 102), (22, 145), (23, 139), (23, 152), (24, 29),
  (24, 50), (25, 4), (25, 149), (26, 209), (26, 213), (27, 38), (27, 129), (28, 49),
  (28, 199), (29, 24), (29, 140), (30, 149), (30, 219), (31, 82), (31, 185), (32, 35),
  (32, 74), (33, 173), (33, 180), (34, 62), (34, 73), (35, 32), (35, 83), (36, 114),
  (36, 180), (37, 128), (37, 137), (38, 27), (38, 214), (39, 199), (39, 231), (40, 147),
  (40, 216), (41, 2), (41, 218), (42, 141), (42, 201), (43, 132), (43, 154), (44, 14),
  (44, 96), (45, 163), (45, 169), (46, 20), (46, 58), (47, 121), (47, 229), (48, 79),
  (48, 198), (49, 28), (49, 130), (50, 24), (50, 153), (51, 4), (51, 202), (52, 125),
  (52, 189), (53, 86), (53, 89), (54, 167), (54, 226), (55, 65), (55, 162), (56, 15),
  (56, 156), (57, 17), (57, 19), (58, 46), (58, 164), (59, 67), (59, 121), (60, 93),
  (60, 135), (61, 7), (61, 72), (62, 34), (62, 174), (63, 83), (63, 221), (64, 109),
  (64, 161), (65, 55), (65, 227), (66, 120), (66, 156), (67, 59), (67, 165), (68, 135),
  (68, 225), (69, 87), (69, 127), (70, 85), (70, 115), (71, 6), (71, 126), (72, 61),
  (72, 136), (73, 34), (73, 181), (74, 32), (74, 186), (75, 12), (75, 173), (76, 8),
  (76, 95), (77, 133), (77, 143), (78, 92), (78, 197), (79, 48), (79, 122), (80, 130),
  (80, 211), (81, 104), (81, 184), (82, 31), (82, 220), (83, 35), (83, 63), (84, 109),
  (84, 114), (85, 70), (85, 88), (86, 53), (86, 126), (87, 69), (87, 226), (88, 85),
  (88, 110), (89, 53), (89, 190), (90, 99), (90, 167), (91, 196), (91, 223), (92, 78),
  (92, 134), (93, 60), (93, 122), (94, 7), (94, 117), (95, 13), (95, 76), (96, 44),
  (96, 133), (97, 169), (97, 224), (98, 158), (98, 166), (99, 90), (99, 191), (100, 177),
  (100, 196), (101, 10), (101, 144), (102, 22), (102, 206), (103, 152), (103, 183), (104, 81),
  (104, 131), (105, 142), (105, 220), (106, 9), (106, 175), (107, 178), (107, 193), (108, 113),
  (108, 160), (109, 64), (109, 84), (110, 88), (110, 227), (111, 190), (111, 204), (112, 159),
  (112, 171), (113, 108), (113, 179), (114, 36), (114, 84), (115, 70), (115, 128), (116, 6),
  (116, 210), (117, 94), (117, 123), (118, 13), (118, 188), (119, 155), (119, 203), (120, 66),
  (120, 228), (121, 47), (121, 59), (122, 79), (122, 93), (123, 117), (123, 211), (124, 188),
  (124, 208), (125, 5), (125, 52), (126, 71), (126, 86), (127, 69), (127, 136), (128, 37),
  (128, 115), (129, 27), (129, 210), (130, 49), (130, 80), (131, 104), (131, 153), (132, 43),
  (132, 142), (133, 77), (133, 96), (134, 92), (134, 224), (135, 60), (135, 68), (136, 72),
  (136, 127), (137, 37), (137, 181), (138, 151), (138, 214), (139, 23), (139, 146), (140, 29),
  (140, 200), (141, 42), (141, 219), (142, 105), (142, 132), (143, 9), (143, 77), (144, 101),
  (144, 197), (145, 22), (145, 230), (146, 139), (146, 215), (147, 40), (147, 200), (148, 3),
  (148, 218), (149, 25), (149, 30), (150, 185), (150, 213), (151, 138), (151, 182), (152, 23),
  (152, 103), (153, 50), (153, 131), (154, 43), (154, 202), (155, 14), (155, 119), (156, 56),
  (156, 66), (157, 19), (157, 165), (158, 98), (158, 170), (159, 112), (159, 191), (160, 108),
  (160, 194), (161, 64), (161, 222), (162, 55), (162, 168), (163, 15), (163, 45), (164, 18),
  (164, 58), (165, 67), (165, 157), (166, 98), (166, 225), (167, 54), (167, 90), (168, 162),
  (168, 223), (169, 45), (169, 97), (170, 20), (170, 158), (171, 112), (171, 205), (172, 11),
  (172, 179), (173, 33), (173, 75), (174, 8), (174, 62), (175, 106), (175, 221), (176, 193),
  (176, 195), (177, 100), (177, 192), (178, 10), (178, 107), (179, 113), (179, 172), (180, 33),
  (180, 36), (181, 73), (181, 137), (182, 151), (182, 186), (183, 103), (183, 207), (184, 81),
  (184, 212), (185, 31), (185, 150), (186, 74), (186, 182), (187, 12), (187, 207), (188, 118),
  (188, 124), (189, 52), (189, 203), (190, 89), (190, 111), (191, 99), (191, 159), (192, 177),
  (192, 194), (193, 107), (193, 176), (194, 160), (194, 192), (195, 176), (195, 222), (196, 91),
  (196, 100), (197, 78), (197, 144), (198, 48), (198, 230), (199, 28), (199, 39), (200, 140),
  (200, 147), (201, 3), (201, 42), (202, 51), (202, 154), (203, 119), (203, 189), (204, 111),
  (204, 228), (205, 21), (205, 171), (206, 11), (206, 102), (207, 183), (207, 187), (208, 124),
  (208, 212), (209, 5), (209, 26), (210, 116), (210, 129), (211, 80), (211, 123), (212, 184),
  (212, 208), (213, 26), (213, 150), (214, 38), (214, 138), (215, 146), (215, 231), (216, 40),
  (216, 232), (217, 1), (217, 2), (218, 41), (218, 148), (219, 30), (219, 141), (220, 82),
  (220, 105), (221, 63), (221, 175), (222, 161), (222, 195), (223, 91), (223, 168), (224, 97),
  (224, 134), (225, 68), (225, 166), (226, 54), (226, 87), (227, 65), (227, 110), (228, 120),
  (228, 204), (229, 21), (229, 47), (230, 145), (230, 198), (231, 39), (231, 215), (232, 216),
  (232, 232)]

/-- The columns of `litMatrix` other than the single column-0 entry, one
representative per duplicated pair: `litMatrix.map Prod.snd` is a permutation
of `0 :: dupEach colBase`. -/
def colBase : List Nat := [
  1, 2, 3, 4, 5, 6, 7, 8, 9, 10, 11, 12, 13, 14, 15, 16,
  17, 18, 19, 20, 21, 22, 23, 24, 25, 26, 27, 28, 29, 30, 31, 32,
  33, 34, 35, 36, 37, 38, 39, 40, 41, 42, 43, 44, 45, 46, 47, 48,
  49, 50, 51, 52, 53, 54, 55, 56, 57, 58, 59, 60, 61, 62, 63, 64,
  65, 66, 67, 68, 69, 70, 71, 72, 73, 74, 75, 76, 77, 78, 79, 80,
  81, 82, 83, 84, 85, 86, 87, 88, 89, 90, 91, 92, 93, 94, 95, 96,
  97, 98, 99, 100, 101, 102, 103, 104, 105, 106, 107, 108, 109, 110, 111, 112,
  113, 114, 115, 116, 117, 118, 119, 120, 121, 122, 123, 124, 125, 126, 127, 128,
  129, 130, 131, 132, 133, 134, 135, 136, 137, 138, 139, 140, 141, 142, 143, 144,
  145, 146, 147, 148, 149, 150, 151, 152, 153, 154, 155, 156, 157, 158, 159, 160,
  161, 162, 163, 164, 165, 166, 167, 168, 169, 170, 171, 172, 173, 174, 175, 176,
  177, 178, 179, 180, 181, 182, 183, 184, 185, 186, 187, 188, 189, 190, 191, 192,
  193, 194, 195, 196, 197, 198, 199, 200, 201, 202, 203, 204, 205, 206, 207, 208,
  209, 210, 211, 212, 213, 214, 215, 216, 217, 218, 219, 220, 221, 222, 223, 224,
  225, 226, 227, 228, 229, 230, 231, 232]

/-- The round-0 encoded unordered index pairs of `litMatrix` other than the
single `0` key: `litMatrix.map keyFun` is a permutation of
`0 :: dupEach pairBase`. -/
def pairBase : List Nat := [
  16, 250, 426, 500, 553, 884, 910, 960, 1044, 1287, 1332, 1543,
  1576, 1697, 1795, 1962, 1999, 2161, 2238, 2367, 2401, 2620, 2732, 2923,
  2946, 3120, 3231, 3346, 3453, 3725, 3726, 3920, 4047, 4288, 4388, 4509,
  4633, 4684, 4708, 5002, 5045, 5229, 5242, 5565, 5586, 5700, 5870, 5874,
  6188, 6279, 6352, 6502, 6645, 6800, 6870, 7068, 7171, 7413, 7452, 7541,
  7548, 7882, 7893, 8106, 8243, 8309, 8520, 8529, 8677, 8894, 8926, 9143,
  9212, 9375, 9626, 9686, 9907, 9929, 10199, 10360, 10366, 10705, 10768, 10876,
  11033, 11152, 11335, 11546, 11731, 11978, 12042, 12312, 12315, 12409, 12468, 12707,
  12804, 12947, 13407, 13684, 13738, 13904, 13946, 14201, 14333, 14520, 14658, 14814,
  14866, 14982, 15287, 15323, 15512, 15686, 15776, 16018, 16058, 16264, 16294, 16487,
  16711, 16900, 17129, 17376, 17688, 17874, 17884, 18054, 18159, 18363, 18508, 18589,
  18769, 18849, 18967, 19541, 19546, 19801, 19997, 20131, 20481, 20635, 20892, 20960,
  21070, 21097, 21393, 21639, 21878, 22330, 22473, 22528, 22765, 22773, 22974, 23203,
  23222, 23489, 23661, 23918, 23949, 24204, 24349, 24427, 24628, 24844, 24859, 25111,
  25158, 25512, 25769, 25783, 26036, 26048, 26262, 26781, 26933, 27254, 27423, 27642,
  27690, 27851, 28570, 28807, 28827, 29581, 29975, 30500, 30745, 31131, 31876, 32077,
  32140, 32379, 32559, 32774, 33498, 33699, 33948, 34197, 34413, 34886, 34914, 35151,
  35833, 36572, 36801, 37014, 37245, 37451, 37739, 38618, 39088, 39808, 40068, 40728,
  40988, 40990, 41225, 42401, 42614, 42843, 43550, 44022, 44733, 45407, 46101, 47507,
  48459, 50078, 50311, 54055]




theorem tmod_small_neg {a : Int} (h1 : -467 < a) (h2 : a < 0) : a.tmod 467 = a := by
  have hz : a.tdiv 467 = 0 := by
    have hb : (-a).tdiv 467 = 0 := Int.tdiv_eq_zero_of_lt (by omega) (by omega)
    have := Int.neg_tdiv a 467
    omega
  rw [Int.tmod_def, hz]
  ring

theorem mod_pow_2_bounds (e : Nat) :
    1 ≤ mod_pow_2 e 467 ∧ mod_pow_2 e 467 ≤ 466 := by
  induction e with
  | zero => simp [mod_pow_2]
  | succ n ih =>
    rw [mod_pow_2, List.range_succ, List.foldl_append]
    show 1 ≤ ((mod_pow_2 n 467) * 2).tmod 467 ∧ ((mod_pow_2 n 467) * 2).tmod 467 ≤ 466
    rw [Int.tmod_eq_emod (by omega) (by omega)]
    omega

theorem powN_eq_pow (e : Nat) : powN e = 2 ^ e % 467 := by
  show (1 <<< e) % 467 = 2 ^ e % 467
  rw [Nat.one_shiftLeft]

theorem mod_pow_2_eq_powN (e : Nat) : mod_pow_2 e 467 = (powN e : Int) := by
  induction e with
  | zero => simp [mod_pow_2, powN]
  | succ n ih =>
    have hb := mod_pow_2_bounds n
    rw [mod_pow_2, List.range_succ, List.foldl_append]
    show ((mod_pow_2 n 467) * 2).tmod 467 = (powN (n + 1) : Int)
    rw [Int.tmod_eq_emod (by omega) (by omega), ih]
    have h : powN (n + 1) = (powN n * 2) % 467 := by
      rw [powN_eq_pow, powN_eq_pow]
      conv_lhs => rw [Nat.pow_succ, Nat.mul_mod]
      try norm_num
    rw [h]
    push_cast
    try rfl

theorem powN_bounds (e : Nat) : 1 ≤ powN e ∧ powN e ≤ 466 := by
  have h := mod_pow_2_bounds e
  rw [mod_pow_2_eq_powN] at h
  omega

set_option maxHeartbeats 2000000 in
theorem cme_one_iff_fastCheck (i j : Nat) :
    compute_matrix_element i j = 1 ↔ fastCheck (powN i) (powN j) = true := by
  have hui := powN_bounds i
  have huj := powN_bounds j
  simp only [compute_matrix_element, pVal, mod_pow_2_eq_powN, List.any_cons,
    List.any_nil, fastCheck]
  generalize hu : powN i = u at *
  generalize hv : powN j = v at *
  have h1 : ((u : Int) + v).tmod 467 = ((u : Int) + v) % 467 :=
    Int.tmod_eq_emod (by omega) (by omega)
  have h2 : ((u : Int) - v + 467).tmod 467 = ((u : Int) - v + 467) % 467 :=
    Int.tmod_eq_emod (by omega) (by omega)
  have h3 : (-(u : Int) + v + 467).tmod 467 = (-(u : Int) + v + 467) % 467 :=
    Int.tmod_eq_emod (by omega) (by omega)
  have h4 : (-(u : Int) - v + 467).tmod 467 = -(u : Int) - v + 467 := by
    rcases Int.le_or_lt 0 (-(u : Int) - v + 467) with h | h
    · rw [Int.tmod_eq_emod h (by omega), Int.emod_eq_of_lt h (by omega)]
    · exact tmod_small_neg (by omega) h
  rw [h1, h2, h3, h4]
  have hite : ∀ (c : Bool), ((if c = true then (1 : Int) else 0) = 1) ↔ c = true := by
    intro c
    cases c <;> simp
  rw [hite]
  simp only [Bool.or_eq_true, beq_iff_eq, Bool.false_eq_true, or_false]
  have e1 : (((u : Int) + v) % 467 = 1 ∨ ((u : Int) + v) % 467 = -466) ↔
      (u + v) % 467 = 1 := by omega
  have e2 : (((u : Int) - v + 467) % 467 = 1 ∨ ((u : Int) - v + 467) % 467 = -466) ↔
      (u + 467 - v) % 467 = 1 := by omega
  have e3 : ((-(u : Int) + v + 467) % 467 = 1 ∨ (-(u : Int) + v + 467) % 467 = -466) ↔
      (v + 467 - u) % 467 = 1 := by omega
  have e4 : ((-(u : Int) - v + 467) = 1 ∨ (-(u : Int) - v + 467) = -466) ↔
      u + v = 466 := by omega
  rw [e1, e2, e3, e4]
  simp only [or_assoc]

theorem rowScan_eq (i : Nat) (js : List Nat) (c : Nat) :
    rowScan i js c = fastRowScan i (powN i) js c := by
  induction js generalizing c with
  | nil => rfl
  | cons j t ih =>
    have hiff := cme_one_iff_fastCheck i j
    rw [rowScan, fastRowScan]
    by_cases h : compute_matrix_element i j = 1
    · have hb : fastCheck (powN i) (powN j) = true := hiff.mp h
      rw [if_pos h, if_pos hb]
      by_cases hc : c + 1 = 2
      · rw [if_pos hc, if_pos hc]
      · rw [if_neg hc, if_neg hc, ih]
    · have hb : ¬ fastCheck (powN i) (powN j) = true := fun hb => h (hiff.mpr hb)
      rw [if_neg h, if_neg hb]
      exact ih c

theorem create_eq_fast : createMultiplicativeMatrix = fastCreate := by
  unfold createMultiplicativeMatrix fastCreate
  simp [rowScan_eq]

set_option maxRecDepth 100000 in
set_option maxHeartbeats 4000000 in
theorem matrix_lit : createMultiplicativeMatrix = litMatrix := by
  rw [create_eq_fast]
  decide



theorem resize_length (l : List Bool) : (resize l).length = 233 := by
  unfold resize mVal
  rw [List.length_take, List.length_append, List.length_replicate]
  omega

theorem resize_getD (l : List Bool) (n : Nat) (hn : n < 233) :
    (resize l).getD n false = l.getD n false := by
  simp only [resize, mVal, List.getD_eq_getElem?_getD]
  rw [List.getElem?_take_of_lt hn]
  by_cases h : n < l.length
  · rw [List.getElem?_append_left h]
  · rw [List.getElem?_append_right (by omega)]
    rw [List.getElem?_eq_none (show l.length ≤ n by omega)]
    rw [List.getElem?_replicate]
    split <;> simp

theorem resize_of_length (l : List Bool) (h : l.length = 233) : resize l = l := by
  unfold resize mVal
  simp [h]

theorem ofCoeffs_length (l : List Bool) : (ofCoeffs l).length = 233 :=
  resize_length l

theorem ofCoeffs_getD (l : List Bool) (n : Nat) (hn : n < 233) :
    (ofCoeffs l).getD n false = l.getD n false :=
  resize_getD l n hn

theorem find?_unique_of_nodup_map (f : Nat → Nat) (is : List Nat) (n i0 : Nat)
    (hnd : (is.map f).Nodup) (hmem : i0 ∈ is) (hf : f i0 = n) :
    is.find? (fun i => f i == n) = some i0 := by
  induction is with
  | nil => cases hmem
  | cons i t ih =>
    rw [List.map_cons, List.nodup_cons] at hnd
    by_cases h : f i = n
    · rw [List.find?_cons_of_pos _ (by simp [h])]
      rcases List.mem_cons.mp hmem with rfl | hmem'
      · rfl
      · exfalso
        have hmm : f i0 ∈ List.map f t := List.mem_map_of_mem f hmem'
        rw [hf, ← h] at hmm
        exact hnd.1 hmm
    · rw [List.find?_cons_of_neg _ (by simp [h])]
      rcases List.mem_cons.mp hmem with rfl | hmem'
      · exact absurd hf h
      · exact ih hnd.2 hmem'

theorem getD_foldl_set (f : Nat → Nat) (g : Nat → Bool) (is : List Nat)
    (l0 : List Bool) (hnd : (is.map f).Nodup) (hlt : ∀ i ∈ is, f i < l0.length)
    (n : Nat) :
    (is.foldl (fun d i => d.set (f i) (g i)) l0).getD n false =
      match is.find? (fun i => f i == n) with
      | some i => g i
      | none => l0.getD n false := by
  induction is generalizing l0 with
  | nil => rfl
  | cons i t ih =>
    rw [List.map_cons, List.nodup_cons] at hnd
    rw [List.foldl_cons]
    have ht : ∀ j ∈ t, f j < (l0.set (f i) (g i)).length := by
      intro j hj
      rw [List.length_set]
      exact hlt j (List.mem_cons_of_mem _ hj)
    rw [ih (l0.set (f i) (g i)) hnd.2 ht]
    by_cases h : f i = n
    · have hnone : t.find? (fun j => f j == n) = none := by
        rw [List.find?_eq_none]
        intro j hj hb
        have hj' : f j = n := by simpa using hb
        have hmm : f j ∈ List.map f t := List.mem_map_of_mem f hj
        rw [hj', ← h] at hmm
        exact hnd.1 hmm
      rw [List.find?_cons_of_pos _ (by simp [h]), hnone]
      show (l0.set (f i) (g i)).getD n false = g i
      have hflt : f i < l0.length := hlt i (List.mem_cons_self i t)
      simp only [List.getD_eq_getElem?_getD, ← h]
      rw [List.getElem?_set_self hflt]
      rfl
    · rw [List.find?_cons_of_neg _ (by simp [h])]
      have hset : (l0.set (f i) (g i)).getD n false = l0.getD n false := by
        simp only [List.getD_eq_getElem?_getD]
        rw [List.getElem?_set_ne h]
      cases hX : t.find? (fun j => f j == n) with
      | some j => rfl
      | none => exact hset

theorem cyclicLeftShift_length (a : List Bool) (k : Nat) :
    (cyclicLeftShift a k).length = 233 :=
  resize_length _

theorem cyclicLeftShift_getD (a : List Bool) (ha : a.length = 233) (k n : Nat)
    (hn : n < 233) :
    (cyclicLeftShift a k).getD n false =
      a.getD ((n + 233 - k % 233) % 233) false := by
  have hnd : ((List.range 233).map (fun i => (i + k) % 233)).Nodup := by
    apply List.Nodup.map_on _ (List.nodup_range 233)
    intro x hx y hy hxy
    rw [List.mem_range] at hx hy
    omega
  have hlt : ∀ i ∈ List.range 233,
      (i + k) % 233 < (List.replicate 233 false).length := by
    intro i _
    rw [List.length_replicate]
    omega
  have hfind : (List.range 233).find? (fun i => (i + k) % 233 == n) =
      some ((n + 233 - k % 233) % 233) := by
    apply find?_unique_of_nodup_map _ _ _ _ hnd
    · rw [List.mem_range]
      omega
    · omega
  have hmain := getD_foldl_set (fun i => (i + k) % 233) (fun i => a.getD i false)
      (List.range 233) (List.replicate 233 false) hnd hlt n
  rw [hfind] at hmain
  have hshow : (cyclicLeftShift a k).getD n false =
      (ofCoeffs ((List.range 233).foldl
        (fun d i => d.set ((i + k) % 233) (a.getD i false))
        (List.replicate 233 false))).getD n false := by
    show (ofCoeffs ((List.range a.length).foldl
        (fun d i => d.set ((i + k) % a.length) (a.getD i false))
        (List.replicate a.length false))).getD n false = _
    rw [ha]
  rw [hshow, ofCoeffs_getD _ _ hn]
  exact hmain

theorem rotIter_length (r : Nat) (a : List Bool) (ha : a.length = 233) :
    (rotIter r a).length = 233 := by
  induction r generalizing a with
  | zero => exact ha
  | succ r ih => exact ih _ (cyclicLeftShift_length a 1)

theorem rotIter_getD (r : Nat) (a : List Bool) (ha : a.length = 233) (n : Nat)
    (hn : n < 233) :
    (rotIter r a).getD n false = a.getD ((n + 232 * r) % 233) false := by
  induction r generalizing a with
  | zero =>
    show a.getD n false = a.getD ((n + 232 * 0) % 233) false
    have h0 : (n + 232 * 0) % 233 = n := by omega
    rw [h0]
  | succ r ih =>
    show (rotIter r (cyclicLeftShift a 1)).getD n false = _
    rw [ih _ (cyclicLeftShift_length a 1)]
    rw [cyclicLeftShift_getD a ha 1 _ (by omega)]
    have h1 : ((n + 232 * r) % 233 + 233 - 1 % 233) % 233 = (n + 232 * (r + 1)) % 233 := by
      omega
    rw [h1]



theorem parityB_zero : parityB 0 = false := rfl

theorem parityB_succ (n : Nat) : parityB (n + 1) = !(parityB n) := by
  unfold parityB
  rcases Nat.mod_two_eq_zero_or_one n with h | h
  · have h1 : (n + 1) % 2 = 1 := by omega
    rw [h, h1]
    rfl
  · have h1 : (n + 1) % 2 = 0 := by omega
    rw [h, h1]
    rfl

theorem parityB_add_ite (n : Nat) (b : Bool) :
    parityB (n + if b then 1 else 0) = (parityB n ^^ b) := by
  cases b
  · simp [Bool.xor_false]
  · rw [if_pos rfl, parityB_succ]
    cases parityB n <;> rfl

theorem getD_replicate_false (n : Nat) :
    (List.replicate 233 false).getD n false = false := by
  rw [List.getD_eq_getElem?_getD, List.getElem?_replicate]
  split <;> rfl

theorem mwt_eq_parity (c tb : List Bool) :
    multiplyWithTransposed c tb =
      parityB ((List.range 233).countP (fun i => tb.getD i false && c.getD i false)) := by
  unfold multiplyWithTransposed mVal
  have key : ∀ (l : List Nat) (r : Bool),
      (l.foldl (fun result i =>
        if tb.getD i false then result ^^ c.getD i false else result) r) =
      (r ^^ parityB (l.countP (fun i => tb.getD i false && c.getD i false))) := by
    intro l
    induction l with
    | nil => intro r; simp [parityB_zero]
    | cons i t ih =>
      intro r
      rw [List.foldl_cons, ih, List.countP_cons]
      have hstep : (if tb.getD i false then r ^^ c.getD i false else r) =
          (r ^^ (tb.getD i false && c.getD i false)) := by
        cases h : tb.getD i false <;> simp
      rw [hstep, parityB_add_ite]
      cases r <;> cases tb.getD i false && c.getD i false <;>
        cases parityB (t.countP fun i => tb.getD i false && c.getD i false) <;> rfl
  rw [key]
  cases parityB ((List.range 233).countP fun i => tb.getD i false && c.getD i false) <;> rfl

theorem mwt_congr (c c' tb : List Bool)
    (h : ∀ i, i < 233 → c.getD i false = c'.getD i false) :
    multiplyWithTransposed c tb = multiplyWithTransposed c' tb := by
  rw [mwt_eq_parity, mwt_eq_parity]
  congr 1
  apply List.countP_congr
  intro i hi
  rw [h i (List.mem_range.mp hi)]

theorem mwt_replicate_false (tb : List Bool) :
    multiplyWithTransposed (List.replicate 233 false) tb = false := by
  rw [mwt_eq_parity]
  have h : ((List.range 233).countP
      (fun i => tb.getD i false && (List.replicate 233 false).getD i false)) =
      ((List.range 233).countP (fun _ => false)) := by
    apply List.countP_congr
    intro i _
    rw [getD_replicate_false, Bool.and_false]
  rw [h, List.countP_false]
  rfl

theorem mwt_set (l tb : List Bool) (n : Nat) (hl : l.length = 233) (hn : n < 233)
    (x : Bool) :
    multiplyWithTransposed (l.set n (l.getD n false ^^ x)) tb =
      (multiplyWithTransposed l tb ^^ (tb.getD n false && x)) := by
  rw [mwt_eq_parity, mwt_eq_parity]
  have hmem : n ∈ List.range 233 := List.mem_range.mpr hn
  have hperm : List.Perm (List.range 233) (n :: (List.range 233).erase n) :=
    List.perm_cons_erase hmem
  rw [hperm.countP_eq, hperm.countP_eq, List.countP_cons, List.countP_cons]
  have herase : ((List.range 233).erase n).countP
      (fun i => tb.getD i false && (l.set n (l.getD n false ^^ x)).getD i false) =
      ((List.range 233).erase n).countP (fun i => tb.getD i false && l.getD i false) := by
    apply List.countP_congr
    intro i hi
    have hne : i ≠ n := ((List.nodup_range 233).mem_erase_iff.mp hi).1
    have : (l.set n (l.getD n false ^^ x)).getD i false = l.getD i false := by
      simp only [List.getD_eq_getElem?_getD]
      rw [List.getElem?_set_ne (fun hh => hne hh.symm)]
    rw [this]
  rw [herase]
  have hself : (l.set n (l.getD n false ^^ x)).getD n false =
      (l.getD n false ^^ x) := by
    simp only [List.getD_eq_getElem?_getD]
    rw [List.getElem?_set_self (by omega)]
    rfl
  rw [hself, parityB_add_ite, parityB_add_ite]
  have tauto : ∀ p t ln : Bool,
      ((p ^^ (t && (ln ^^ x))) = ((p ^^ (t && ln)) ^^ (t && x))) := by
    cases x <;> decide
  exact tauto _ _ _

theorem mwt_foldl_xorset (tb : List Bool) (v : Nat × Nat → Bool)
    (es : List (Nat × Nat)) (l0 : List Bool) (hl : l0.length = 233)
    (hrows : ∀ e ∈ es, e.1 < 233) :
    multiplyWithTransposed
        (es.foldl (fun r e => r.set e.1 (r.getD e.1 false ^^ v e)) l0) tb =
      (multiplyWithTransposed l0 tb ^^
        parityB (es.countP (fun e => tb.getD e.1 false && v e))) := by
  induction es generalizing l0 with
  | nil =>
    simp only [List.foldl_nil, List.countP_nil, parityB_zero, Bool.xor_false]
  | cons e t ih =>
    rw [List.foldl_cons]
    have hl' : (l0.set e.1 (l0.getD e.1 false ^^ v e)).length = 233 := by
      rw [List.length_set]
      exact hl
    rw [ih _ hl' (fun e' he' => hrows e' (List.mem_cons_of_mem _ he'))]
    rw [mwt_set l0 tb e.1 hl (hrows e (List.mem_cons_self e t)) (v e)]
    rw [List.countP_cons, parityB_add_ite]
    cases multiplyWithTransposed l0 tb <;>
      cases tb.getD e.1 false && v e <;>
      cases parityB (t.countP fun e => tb.getD e.1 false && v e) <;> rfl

theorem ttv_getD (b : List Bool) (i : Nat) (hi : i < 233) :
    (transposeToVector b).getD i false = b.getD (232 - i) false := by
  unfold transposeToVector mVal
  rw [List.getD_eq_getElem?_getD, List.getElem?_map, List.getElem?_range hi]
  show b.getD (233 - 1 - i) false = b.getD (232 - i) false
  congr 1

theorem roundBit_eq (M : List (Nat × Nat)) (a b : List Bool)
    (hrows : ∀ e ∈ M, e.1 < 233) :
    roundBit M a b =
      parityB (M.countP (fun e =>
        (transposeToVector b).getD e.1 false && a.getD (232 - e.2) false)) := by
  unfold roundBit
  have h1 : multiplyWithTransposed (ofCoeffs (multiplyWithMatrix a M))
      (transposeToVector b) =
      multiplyWithTransposed (multiplyWithMatrix a M) (transposeToVector b) := by
    apply mwt_congr
    intro i hi
    exact ofCoeffs_getD _ i hi
  rw [h1]
  have h2 := mwt_foldl_xorset (transposeToVector b)
      (fun e => a.getD (233 - 1 - e.2) false) M (List.replicate 233 false)
      (List.length_replicate 233 false) hrows
  have h4 : multiplyWithTransposed (multiplyWithMatrix a M) (transposeToVector b) =
      (multiplyWithTransposed (List.replicate 233 false) (transposeToVector b) ^^
        parityB (M.countP (fun e =>
          (transposeToVector b).getD e.1 false && a.getD (233 - 1 - e.2) false))) := h2
  rw [h4, mwt_replicate_false]
  have h3 : (M.countP (fun e =>
      (transposeToVector b).getD e.1 false && a.getD (233 - 1 - e.2) false)) =
      (M.countP (fun e =>
      (transposeToVector b).getD e.1 false && a.getD (232 - e.2) false)) := by
    apply List.countP_congr
    intro e _
    rfl
  rw [h3]
  cases parityB (M.countP fun e =>
    (transposeToVector b).getD e.1 false && a.getD (232 - e.2) false) <;> rfl



theorem masLoop_succ (M : List (Nat × Nat)) (s : Nat) (a b : List Bool)
    (acc : List Char) :
    masLoop M (s + 1) a b acc =
      masLoop M s (cyclicLeftShift a 1) (cyclicLeftShift b 1)
        (acc ++ [if roundBit M a b then '1' else '0']) := rfl

theorem masLoop_length (M : List (Nat × Nat)) (s : Nat) (a b : List Bool)
    (acc : List Char) : (masLoop M s a b acc).length = acc.length + s := by
  induction s generalizing a b acc with
  | zero => rfl
  | succ s ih =>
    rw [masLoop_succ, ih, List.length_append]
    simp
    omega

theorem masLoop_getD_front (M : List (Nat × Nat)) (s : Nat) (a b : List Bool)
    (acc : List Char) (n : Nat) (hn : n < acc.length) :
    (masLoop M s a b acc).getD n '0' = acc.getD n '0' := by
  induction s generalizing a b acc with
  | zero => rfl
  | succ s ih =>
    rw [masLoop_succ, ih _ _ _ (by rw [List.length_append]; omega)]
    rw [List.getD_eq_getElem?_getD, List.getD_eq_getElem?_getD,
      List.getElem?_append_left hn]

theorem masLoop_getD_bit (M : List (Nat × Nat)) (s : Nat) (r : Nat)
    (a b : List Bool) (acc : List Char) (hr : r < s) :
    (masLoop M s a b acc).getD (acc.length + r) '0' =
      if roundBit M (rotIter r a) (rotIter r b) then '1' else '0' := by
  induction s generalizing r a b acc with
  | zero => omega
  | succ s ih =>
    rw [masLoop_succ]
    cases r with
    | zero =>
      rw [masLoop_getD_front _ _ _ _ _ _ (by rw [List.length_append]; simp)]
      rw [List.getD_eq_getElem?_getD]
      have hc : (acc ++ [if roundBit M a b then '1' else '0'])[acc.length + 0]? =
          some (if roundBit M a b then '1' else '0') := by
        show (acc ++ [if roundBit M a b then '1' else '0'])[acc.length]? = _
        exact List.getElem?_concat_length _ _
      rw [hc]
      rfl
    | succ r' =>
      have hidx : acc.length + (r' + 1) =
          (acc ++ [if roundBit M a b then '1' else '0']).length + r' := by
        rw [List.length_append]
        simp
        omega
      rw [hidx, ih r' _ _ _ (by omega)]
      rfl

theorem multiplyAndShift_data (a b : List Bool) (steps : Nat) :
    (multiplyAndShift a b steps).data =
      masLoop createMultiplicativeMatrix steps a b [] := rfl

theorem mul_getD (a b : List Bool) (t : Nat) (ht : t < 233) :
    (mul a b).getD t false =
      ((masLoop createMultiplicativeMatrix 233 a b []).getD (232 - t) '0' == '1') := by
  set D := masLoop createMultiplicativeMatrix 233 a b [] with hD
  have hlen : D.length = 233 := by
    rw [hD, masLoop_length]
    rfl
  have hmul : mul a b = ofCoeffs ((D.reverse).map (fun c => c == '1')) := by
    rw [hD]
    unfold mul
    rw [multiplyAndShift_data]
  rw [hmul, ofCoeffs_getD _ _ ht]
  rw [List.getD_eq_getElem?_getD, List.getElem?_map]
  have hrev : D.reverse[t]? = D[D.length - 1 - t]? :=
    List.getElem?_reverse (by omega)
  rw [hrev]
  have hidx : D.length - 1 - t = 232 - t := by omega
  rw [hidx]
  have hsome : D[232 - t]? = some (D.getD (232 - t) '0') := by
    rw [List.getD_eq_getElem?_getD]
    rcases h : D[232 - t]? with _ | c
    · rw [List.getElem?_eq_none_iff] at h
      omega
    · rfl
  rw [hsome]
  rfl

theorem mul_length (a b : List Bool) : (mul a b).length = 233 :=
  ofCoeffs_length _

theorem ofString_getD (s : String) (i : Nat) (hi : i < 233) :
    (ofString s).getD i false = (s.data.reverse.getD i '0' == '1') := by
  show (ofCoeffs ((s.data.reverse).map (fun c => c == '1'))).getD i false = _
  rw [ofCoeffs_getD _ _ hi]
  rw [List.getD_eq_getElem?_getD, List.getElem?_map,
    List.getD_eq_getElem?_getD]
  rcases h : s.data.reverse[i]? with _ | c <;> rfl



theorem countP_dupEach_even (p : α → Bool) (l : List α) :
    (dupEach l).countP p % 2 = 0 := by
  induction l with
  | nil => rfl
  | cons a t ih =>
    show (a :: a :: dupEach t).countP p % 2 = 0
    rw [List.countP_cons, List.countP_cons]
    omega

theorem parity_countP_of_perm_cons_dup (x : α) (base l : List α) (p : α → Bool)
    (hperm : List.Perm l (x :: dupEach base)) :
    parityB (l.countP p) = p x := by
  rw [hperm.countP_eq, List.countP_cons, parityB_add_ite]
  have he := countP_dupEach_even p base
  have hz : parityB ((dupEach base).countP p) = false := by
    unfold parityB
    rw [he]
    rfl
  rw [hz, Bool.false_xor]

set_option maxRecDepth 10000 in
theorem litMatrix_rows : ∀ e ∈ litMatrix, e.1 < 233 ∧ e.2 < 233 := by decide

theorem insertLe_perm {α : Type} (le : α → α → Bool) (a : α) (l : List α) :
    List.Perm (insertLe le a l) (a :: l) := by
  induction l with
  | nil => exact List.Perm.refl _
  | cons b t ih =>
    show List.Perm (if le a b then a :: b :: t else b :: insertLe le a t) _
    split
    · exact List.Perm.refl _
    · exact (ih.cons b).trans (List.Perm.swap a b t)

theorem sortLe_perm {α : Type} (le : α → α → Bool) (l : List α) :
    List.Perm (sortLe le l) l := by
  induction l with
  | nil => exact List.Perm.refl _
  | cons a t ih =>
    show List.Perm (insertLe le a (sortLe le t)) (a :: t)
    exact (insertLe_perm le a (sortLe le t)).trans (ih.cons a)

theorem permOfSortEq {α : Type} (le : α → α → Bool) (l1 l2 : List α)
    (h : sortLe le l1 = sortLe le l2) : List.Perm l1 l2 :=
  ((sortLe_perm le l1).symm.trans (h ▸ sortLe_perm le l2))

set_option maxRecDepth 100000 in
set_option maxHeartbeats 2000000 in
theorem colPerm : List.Perm (litMatrix.map Prod.snd) (0 :: dupEach colBase) :=
  permOfSortEq (fun a b => Nat.ble a b) _ _ (by decide)

set_option maxRecDepth 100000 in
set_option maxHeartbeats 2000000 in
theorem keyPerm : List.Perm (litMatrix.map keyFun) (0 :: dupEach pairBase) :=
  permOfSortEq (fun a b => Nat.ble a b) _ _ (by decide)

theorem prod_coeff (a b : List Bool) (t : Nat) (ht : t < 233) :
    (mul a b).getD t false =
      roundBit litMatrix (rotIter (232 - t) a) (rotIter (232 - t) b) := by
  rw [mul_getD a b t ht, matrix_lit]
  have hb := masLoop_getD_bit litMatrix 233 (232 - t) a b [] (by omega)
  have hidx : ([] : List Char).length + (232 - t) = 232 - t := by simp
  rw [hidx] at hb
  rw [hb]
  cases roundBit litMatrix (rotIter (232 - t) a) (rotIter (232 - t) b) <;> rfl

theorem roundBit_lit (a b : List Bool) :
    roundBit litMatrix a b =
      parityB (litMatrix.countP (fun e =>
        b.getD (232 - e.1) false && a.getD (232 - e.2) false)) := by
  rw [roundBit_eq litMatrix a b (fun e he => (litMatrix_rows e he).1)]
  apply congrArg parityB
  apply List.countP_congr
  intro e he
  rw [ttv_getD b e.1 (litMatrix_rows e he).1]

theorem countP_colMap (q : Nat → Bool) :
    parityB (litMatrix.countP (fun e => q e.2)) = q 0 := by
  have h1 : (litMatrix.map Prod.snd).countP q =
      litMatrix.countP (fun e => q e.2) := by
    rw [List.countP_map]
    rfl
  rw [← h1]
  exact parity_countP_of_perm_cons_dup 0 colBase _ q colPerm

theorem countP_keyMap (a' : List Bool) :
    parityB (litMatrix.countP (fun e =>
      a'.getD (232 - e.1) false && a'.getD (232 - e.2) false)) =
      a'.getD 0 false := by
  have h1 : (litMatrix.map keyFun).countP
      (fun k => a'.getD (k / 233) false && a'.getD (k % 233) false) =
      litMatrix.countP (fun e =>
        a'.getD (232 - e.1) false && a'.getD (232 - e.2) false) := by
    rw [List.countP_map]
    apply List.countP_congr
    intro e _
    show (a'.getD (keyFun e / 233) false && a'.getD (keyFun e % 233) false) = true ↔
      (a'.getD (232 - e.1) false && a'.getD (232 - e.2) false) = true
    unfold keyFun
    by_cases hc : 232 - e.2 ≤ 232 - e.1
    · rw [if_pos hc]
      have hdiv : ((232 - e.2) * 233 + (232 - e.1)) / 233 = 232 - e.2 := by omega
      have hmod : ((232 - e.2) * 233 + (232 - e.1)) % 233 = 232 - e.1 := by omega
      rw [hdiv, hmod, Bool.and_comm]
    · rw [if_neg hc]
      have hdiv : ((232 - e.1) * 233 + (232 - e.2)) / 233 = 232 - e.1 := by omega
      have hmod : ((232 - e.1) * 233 + (232 - e.2)) % 233 = 232 - e.2 := by omega
      rw [hdiv, hmod]
  rw [← h1]
  have h2 := parity_countP_of_perm_cons_dup 0 pairBase
      (litMatrix.map keyFun)
      (fun k => a'.getD (k / 233) false && a'.getD (k % 233) false) keyPerm
  rw [h2]
  show (a'.getD 0 false && a'.getD 0 false) = _
  rw [Bool.and_self]

theorem getD_replicate_true (n : Nat) (hn : n < 233) :
    (List.replicate 233 true).getD n false = true := by
  rw [List.getD_eq_getElem?_getD, List.getElem?_replicate, if_pos hn]
  rfl

theorem ext233 (l1 l2 : List Bool) (h1 : l1.length = 233) (h2 : l2.length = 233)
    (h : ∀ n, n < 233 → l1.getD n false = l2.getD n false) : l1 = l2 := by
  apply List.ext_getElem (by omega)
  intro n hn1 hn2
  have hx := h n (by omega)
  rw [List.getD_eq_getElem?_getD, List.getD_eq_getElem?_getD,
    List.getElem?_eq_getElem hn1, List.getElem?_eq_getElem hn2] at hx
  simpa using hx

theorem identityElt_length : identityElt.length = 233 := by
  unfold identityElt mVal
  exact List.length_replicate 233 true

theorem identityElt_getD (n : Nat) (hn : n < 233) :
    identityElt.getD n false = true :=
  getD_replicate_true n hn

theorem identity_rot1 : cyclicLeftShift identityElt 1 = identityElt := by
  apply ext233 _ _ (cyclicLeftShift_length _ 1) identityElt_length
  intro n hn
  rw [cyclicLeftShift_getD identityElt identityElt_length 1 n hn]
  rw [identityElt_getD _ (by omega), identityElt_getD _ hn]

theorem rotIter_identity (r : Nat) : rotIter r identityElt = identityElt := by
  induction r with
  | zero => rfl
  | succ r ih =>
    show rotIter r (cyclicLeftShift identityElt 1) = identityElt
    rw [identity_rot1]
    exact ih

theorem mul_identity (a : List Bool) (ha : a.length = 233) :
    mul a identityElt = a := by
  apply ext233 _ _ (mul_length a identityElt) ha
  intro t ht
  rw [prod_coeff a identityElt t ht, rotIter_identity (232 - t), roundBit_lit]
  have hcong : (litMatrix.countP (fun e =>
      identityElt.getD (232 - e.1) false && (rotIter (232 - t) a).getD (232 - e.2) false)) =
      (litMatrix.countP (fun e => (rotIter (232 - t) a).getD (232 - e.2) false)) := by
    apply List.countP_congr
    intro e _
    rw [identityElt_getD (232 - e.1) (by omega), Bool.true_and]
  rw [hcong]
  have hkey := countP_colMap (fun j => (rotIter (232 - t) a).getD (232 - j) false)
  rw [hkey]
  show (rotIter (232 - t) a).getD 232 false = a.getD t false
  rw [rotIter_getD (232 - t) a ha 232 (by omega)]
  have hidx : (232 + 232 * (232 - t)) % 233 = t := by omega
  rw [hidx]

theorem squareONB_length (a : List Bool) : (squareONB a).length = 233 :=
  ofCoeffs_length _

theorem squareONB_getD (a : List Bool) (t : Nat) (ht : t < 233) :
    (squareONB a).getD t false = a.getD ((t + 1) % 233) false := by
  show (ofCoeffs ((List.range mVal).map (fun i =>
    if i = mVal - 1 then a.getD 0 false else a.getD (i + 1) false))).getD t false = _
  rw [ofCoeffs_getD _ _ ht]
  rw [List.getD_eq_getElem?_getD, List.getElem?_map]
  have hr : (List.range mVal)[t]? = some t := List.getElem?_range ht
  rw [hr]
  show (if t = mVal - 1 then a.getD 0 false else a.getD (t + 1) false) = _
  by_cases h : t = 232
  · rw [if_pos (by rw [h]; rfl)]
    have : (t + 1) % 233 = 0 := by omega
    rw [this]
  · rw [if_neg (by intro hc; rw [hc] at h; exact h rfl)]
    have : (t + 1) % 233 = t + 1 := by omega
    rw [this]

theorem mul_self_getD (a : List Bool) (ha : a.length = 233) (t : Nat)
    (ht : t < 233) :
    (mul a a).getD t false = a.getD ((t + 1) % 233) false := by
  rw [prod_coeff a a t ht, roundBit_lit, countP_keyMap]
  rw [rotIter_getD (232 - t) a ha 0 (by omega)]
  have hidx : (0 + 232 * (232 - t)) % 233 = (t + 1) % 233 := by omega
  rw [hidx]

theorem squareONB_eq_mul_self (a : List Bool) (ha : a.length = 233) :
    squareONB a = mul a a := by
  apply ext233 _ _ (squareONB_length a) (mul_length a a)
  intro t ht
  rw [squareONB_getD a t ht, mul_self_getD a ha t ht]



theorem zeroElt_length : zeroElt.length = 233 := by
  unfold zeroElt mVal
  exact List.length_replicate 233 false

theorem zeroElt_getD (n : Nat) : zeroElt.getD n false = false := by
  show (List.replicate 233 false).getD n false = false
  exact getD_replicate_false n

theorem zero_rot1 : cyclicLeftShift zeroElt 1 = zeroElt := by
  apply ext233 _ _ (cyclicLeftShift_length _ 1) zeroElt_length
  intro n hn
  rw [cyclicLeftShift_getD zeroElt zeroElt_length 1 n hn, zeroElt_getD, zeroElt_getD]

theorem rotIter_zero (r : Nat) : rotIter r zeroElt = zeroElt := by
  induction r with
  | zero => rfl
  | succ r ih =>
    show rotIter r (cyclicLeftShift zeroElt 1) = zeroElt
    rw [zero_rot1]
    exact ih

theorem mul_zero_zero : mul zeroElt zeroElt = zeroElt := by
  apply ext233 _ _ (mul_length _ _) zeroElt_length
  intro t ht
  rw [prod_coeff _ _ t ht, rotIter_zero, roundBit_lit]
  have hc : (litMatrix.countP (fun e =>
      zeroElt.getD (232 - e.1) false && zeroElt.getD (232 - e.2) false)) =
      litMatrix.countP (fun _ => false) := by
    apply List.countP_congr
    intro e _
    rw [zeroElt_getD, zeroElt_getD]
    exact Iff.rfl
  rw [hc, zeroElt_getD]
  show parityB (litMatrix.countP fun _ => false) = false
  rw [List.countP_false]
  rfl

theorem squareONB_zero : squareONB zeroElt = zeroElt := by
  apply ext233 _ _ (squareONB_length _) zeroElt_length
  intro t ht
  rw [squareONB_getD _ t ht, zeroElt_getD, zeroElt_getD]

theorem squareIter_zero (k : Nat) : squareIter k zeroElt = zeroElt := by
  induction k with
  | zero => rfl
  | succ k ih =>
    show squareIter k (squareONB zeroElt) = zeroElt
    rw [squareONB_zero]
    exact ih

theorem inverse_fold_zero (l : List Nat) : ∀ st : List Bool × Nat,
    st.1 = zeroElt →
    (l.foldl (fun (st : List Bool × Nat) (i : Nat) =>
      let beta := st.1
      let k := st.2
      let original_beta := beta
      let beta := mul (squareIter k beta) original_beta
      let k := k * 2
      if ("11101000" : String).data.getD i '0' == '1' then
        (mul (squareONB beta) zeroElt, k + 1)
      else (beta, k)) st).1 = zeroElt := by
  induction l with
  | nil =>
    intro st h
    exact h
  | cons i t ih =>
    intro st h
    rw [List.foldl_cons]
    apply ih
    show (if ("11101000" : String).data.getD i '0' == '1' then
        (mul (squareONB (mul (squareIter st.2 st.1) st.1)) zeroElt, st.2 * 2 + 1)
      else (mul (squareIter st.2 st.1) st.1, st.2 * 2)).1 = zeroElt
    rw [h, squareIter_zero, mul_zero_zero, squareONB_zero, mul_zero_zero]
    split <;> rfl

theorem inverse_zero : inverse zeroElt = zeroElt := by
  show squareONB ((List.range' 1 7).foldl (fun (st : List Bool × Nat) (i : Nat) =>
      let beta := st.1
      let k := st.2
      let original_beta := beta
      let beta := mul (squareIter k beta) original_beta
      let k := k * 2
      if ("11101000" : String).data.getD i '0' == '1' then
        (mul (squareONB beta) zeroElt, k + 1)
      else (beta, k)) (zeroElt, 1)).1 = zeroElt
  rw [inverse_fold_zero (List.range' 1 7) (zeroElt, 1) rfl]
  exact squareONB_zero

theorem e0elt_length : e0elt.length = 233 := by
  unfold e0elt
  rw [List.length_cons, List.length_replicate]

/-- Claim C2: for every field element (233 coefficients), multiplying by the
all-true identity element returns the element unchanged. -/
theorem claim2 : ∀ a : List Bool, a.length = 233 → mul a identityElt = a :=
  fun a ha => mul_identity a ha

/-- Claim C2 witness at the zero element. -/
theorem claim2_witness : mul zeroElt identityElt = zeroElt :=
  claim2 zeroElt zeroElt_length

/-- Claim C3 (amended): the reversal in `operator*` makes round bit `r` the
product coefficient `232 - r`; in particular the first round's output bit
becomes the most-significant coefficient (index 232), not index 0. -/
theorem claim3 : ∀ (a b : List Bool) (r : Nat), r < 233 →
    (mul a b).getD (232 - r) false =
      ((multiplyAndShift a b 233).data.getD r '0' == '1') := by
  intro a b r hr
  rw [mul_getD a b (232 - r) (by omega), multiplyAndShift_data]
  have h : 232 - (232 - r) = r := by omega
  rw [h]

/-- Claim C3 witness: the first round's bit is coefficient 232 of the product. -/
theorem claim3_witness : (mul e0elt e0elt).getD 232 false =
    ((multiplyAndShift e0elt e0elt 233).data.getD 0 '0' == '1') :=
  claim3 e0elt e0elt 0 (by omega)

set_option maxRecDepth 100000 in
/-- Claim C3 counterexample: for a = b = the element with only coefficient 0
set, the first round's output bit is 1 but coefficient 0 of the product is 0,
so the first round's bit does not become coefficient index 0. -/
theorem claim3_counterexample :
    ¬ ((mul e0elt e0elt).getD 0 false =
      ((multiplyAndShift e0elt e0elt 233).data.getD 0 '0' == '1')) := by
  have hL : (mul e0elt e0elt).getD 0 false = false := by
    rw [mul_self_getD e0elt e0elt_length 0 (by omega)]
    decide
  have hR : ((multiplyAndShift e0elt e0elt 233).data.getD 0 '0' == '1') = true := by
    rw [multiplyAndShift_data, matrix_lit]
    have hb := masLoop_getD_bit litMatrix 233 0 e0elt e0elt [] (by omega)
    have hidx : ([] : List Char).length + 0 = 0 := rfl
    rw [hidx] at hb
    rw [hb]
    have hrb : roundBit litMatrix (rotIter 0 e0elt) (rotIter 0 e0elt) = true := by
      show roundBit litMatrix e0elt e0elt = true
      rw [roundBit_lit]
      decide
    rw [hrb]
    rfl
  rw [hL, hR]
  intro h
  exact Bool.noConfusion h

/-- Claim C7 (amended): `inverse` performs no zero check; inverting the zero
element runs the addition chain and returns the zero element, a bogus value
whose product with the input is not the identity, instead of raising an error. -/
theorem claim7 : inverse zeroElt = zeroElt ∧
    mul zeroElt (inverse zeroElt) ≠ identityElt := by
  constructor
  · exact inverse_zero
  · rw [inverse_zero, mul_zero_zero]
    intro h
    have h0 : zeroElt.getD 0 false = identityElt.getD 0 false := by rw [h]
    rw [zeroElt_getD, identityElt_getD 0 (by omega)] at h0
    exact Bool.noConfusion h0

/-- Claim C7 counterexample: inverting the zero element does not raise any
error; it returns a field-element value (the zero element itself). -/
theorem claim7_counterexample : inverse zeroElt = zeroElt := inverse_zero

/-- Claim C9 (amended): the hand-rolled squaring rotation equals the generic
cyclic shift by 232 positions (not by 1) for 233-coefficient elements. -/
theorem claim9 : ∀ a : List Bool, a.length = 233 →
    squareONB a = cyclicLeftShift a 232 := by
  intro a ha
  apply ext233 _ _ (squareONB_length a) (cyclicLeftShift_length a 232)
  intro t ht
  rw [squareONB_getD a t ht, cyclicLeftShift_getD a ha 232 t ht]
  have h : (t + 233 - 232 % 233) % 233 = (t + 1) % 233 := by omega
  rw [h]

/-- Claim C9 witness. -/
theorem claim9_witness : squareONB e0elt = cyclicLeftShift e0elt 232 :=
  claim9 e0elt e0elt_length

set_option maxRecDepth 100000 in
/-- Claim C9 counterexample: squaring is not the cyclic shift by one; on the
element with only coefficient 0 set they produce different elements. -/
theorem claim9_counterexample :
    ¬ (squareONB e0elt = cyclicLeftShift e0elt 1) := by
  decide

/-- Claim C10: the rotation-based squaring agrees with the multiplication
routine applied to two copies of the element. -/
theorem claim10 : ∀ a : List Bool, a.length = 233 → squareONB a = mul a a :=
  fun a ha => squareONB_eq_mul_self a ha

/-- Claim C10 witness. -/
theorem claim10_witness : squareONB e0elt = mul e0elt e0elt :=
  claim10 e0elt e0elt_length



theorem powN_cast (e : Nat) : ((powN e : Nat) : Int) = 2 ^ e % 467 := by
  rw [powN_eq_pow]
  push_cast
  try rfl

theorem cme_zero_or_one (i j : Nat) :
    compute_matrix_element i j = 0 ∨ compute_matrix_element i j = 1 := by
  simp only [compute_matrix_element]
  split
  · exact Or.inr rfl
  · exact Or.inl rfl

theorem fastCheck_iff_combos (u v : Nat) (hu1 : 1 ≤ u) (hu2 : u ≤ 466)
    (hv1 : 1 ≤ v) (hv2 : v ≤ 466) :
    (fastCheck u v = true ↔
      ∃ c ∈ [(u : Int) + (v : Int), (u : Int) - (v : Int),
        -(u : Int) + (v : Int), -(u : Int) - (v : Int)],
        c % 467 = 1 ∨ c % 467 = 466) := by
  unfold fastCheck
  simp only [Bool.or_eq_true, beq_iff_eq]
  constructor
  · intro h
    rcases h with ((h | h) | h) | h
    · exact ⟨(u : Int) + (v : Int), by simp, Or.inl (by omega)⟩
    · exact ⟨(u : Int) - (v : Int), by simp, Or.inl (by omega)⟩
    · exact ⟨-(u : Int) + (v : Int), by simp, Or.inl (by omega)⟩
    · exact ⟨-(u : Int) - (v : Int), by simp, Or.inl (by omega)⟩
  · rintro ⟨c, hc, hcond⟩
    simp only [List.mem_cons, List.not_mem_nil, or_false] at hc
    rcases hc with rfl | rfl | rfl | rfl
    · rcases hcond with h | h
      · exact Or.inl (Or.inl (Or.inl (by omega)))
      · exact Or.inr (by omega)
    · rcases hcond with h | h
      · exact Or.inl (Or.inl (Or.inr (by omega)))
      · exact Or.inl (Or.inr (by omega))
    · rcases hcond with h | h
      · exact Or.inl (Or.inr (by omega))
      · exact Or.inl (Or.inl (Or.inr (by omega)))
    · rcases hcond with h | h
      · exact Or.inr (by omega)
      · exact Or.inl (Or.inl (Or.inl (by omega)))

/-- Claim C4: for i, j in 0..232, `compute_matrix_element i j = 1` exactly
when, with u = 2^i mod 467 and v = 2^j mod 467, one of the four signed
combinations u+v, u-v, -u+v, -u-v is congruent mod 467 to 1 or to 466;
otherwise the entry is 0. -/
theorem claim4 : ∀ i, i < 233 → ∀ j, j < 233 →
    ((compute_matrix_element i j = 1 ↔ specMatrixEntryHolds i j) ∧
      (¬ specMatrixEntryHolds i j → compute_matrix_element i j = 0)) := by
  intro i _ j _
  have hiff : compute_matrix_element i j = 1 ↔ specMatrixEntryHolds i j := by
    rw [cme_one_iff_fastCheck]
    simp only [specMatrixEntryHolds, specCombinations]
    rw [← powN_cast i, ← powN_cast j]
    exact fastCheck_iff_combos (powN i) (powN j) (powN_bounds i).1
      (powN_bounds i).2 (powN_bounds j).1 (powN_bounds j).2
  refine ⟨hiff, fun hns => ?_⟩
  rcases cme_zero_or_one i j with h | h
  · exact h
  · exact absurd (hiff.mp h) hns

/-- Claim C4 witness at the entry (0, 1). -/
theorem claim4_witness :
    (compute_matrix_element 0 1 = 1 ↔ specMatrixEntryHolds 0 1) ∧
      (¬ specMatrixEntryHolds 0 1 → compute_matrix_element 0 1 = 0) :=
  claim4 0 (by omega) 1 (by omega)

set_option maxRecDepth 10000 in
set_option maxHeartbeats 2000000 in
/-- Claim C5 (amended): in the matrix built for m = 233, p = 467, row 0
contributes exactly one marked entry, and every row i in 1..232 contributes
exactly two. -/
theorem claim5 : ∀ i, i < 233 →
    createMultiplicativeMatrix.countP (fun e => e.1 == i) =
      if i = 0 then 1 else 2 := by
  have key : ∀ i, i < 233 → litMatrix.countP (fun e => e.1 == i) =
      if i = 0 then 1 else 2 := by decide
  intro i hi
  rw [matrix_lit]
  exact key i hi

/-- Claim C5 witness: row 5 contributes exactly two marked entries. -/
theorem claim5_witness :
    createMultiplicativeMatrix.countP (fun e => e.1 == 5) =
      if (5 : Nat) = 0 then 1 else 2 :=
  claim5 5 (by omega)

set_option maxRecDepth 10000 in
set_option maxHeartbeats 2000000 in
/-- Claim C5 counterexample: row 0 does not contribute two marked entries
(it contributes only one), so not every row contributes exactly two. -/
theorem claim5_counterexample :
    ¬ (createMultiplicativeMatrix.countP (fun e => e.1 == 0) = 2) := by
  rw [matrix_lit]
  decide

/-- Claim C6 (amended): the string constructor performs no validation at all;
coefficient i of the constructed element is simply the test `c == '1'` on the
i-th character from the right, so any character other than '1' (including
invalid ones) silently reads as 0, and characters beyond the 233rd from the
right are silently dropped by the resize. -/
theorem claim6 : ∀ (s : String) (i : Nat), i < 233 →
    (ofString s).getD i false = (s.data.reverse.getD i '0' == '1') :=
  fun s i hi => ofString_getD s i hi

/-- Claim C6 witness at the string "10", coefficient 0. -/
theorem claim6_witness :
    (ofString "10").getD 0 false =
      (("10" : String).data.reverse.getD 0 '0' == '1') :=
  claim6 "10" 0 (by omega)

set_option maxRecDepth 10000 in
/-- Claim C6 counterexample: constructing from the invalid string "2" and
from a 234-character string both succeed silently (no validation error is
possible: the constructor is a total function into field elements), producing
the zero element in both cases. -/
theorem claim6_counterexample :
    ofString "2" = zeroElt ∧ ofString longString = zeroElt := by
  constructor <;> decide

/-- Claim C8: for every 233-character string of '0'/'1' characters,
serializing the element constructed from it reproduces the string exactly. -/
theorem claim8 : ∀ s : String, s.length = 233 →
    (∀ c ∈ s.data, c = '0' ∨ c = '1') → serialize (ofString s) = s := by
  intro s hlen hchars
  have hdl : s.data.length = 233 := hlen
  apply String.ext
  show ((List.range mVal).reverse.map (fun i =>
      if (ofString s).getD i false then '1' else '0')) = s.data
  apply List.ext_getElem?
  intro n
  by_cases hn : n < 233
  · have hlr : (List.range mVal).length = 233 := by
      rw [List.length_range]
      rfl
    have hL : ((List.range mVal).reverse.map (fun i =>
        if (ofString s).getD i false then '1' else '0'))[n]? =
        some (if (ofString s).getD (232 - n) false then '1' else '0') := by
      rw [List.getElem?_map]
      have h1 : (List.range mVal).reverse[n]? =
          (List.range mVal)[(List.range mVal).length - 1 - n]? :=
        List.getElem?_reverse (by rw [hlr]; omega)
      rw [h1, hlr]
      have h2 : (List.range mVal)[233 - 1 - n]? = some (233 - 1 - n) :=
        List.getElem?_range (by show 233 - 1 - n < 233; omega)
      rw [h2]
      have h3 : (233 : Nat) - 1 - n = 232 - n := by omega
      rw [h3]
      rfl
    rw [hL, ofString_getD s (232 - n) (by omega)]
    have hrev : s.data.reverse.getD (232 - n) '0' = s.data.getD n '0' := by
      rw [List.getD_eq_getElem?_getD, List.getD_eq_getElem?_getD]
      have hr2 : s.data.reverse[232 - n]? =
          s.data[s.data.length - 1 - (232 - n)]? :=
        List.getElem?_reverse (by rw [hdl]; omega)
      rw [hr2]
      have h4 : s.data.length - 1 - (232 - n) = n := by
        rw [hdl]
        omega
      rw [h4]
    rw [hrev]
    have hsome : s.data[n]? = some (s.data.getD n '0') := by
      rw [List.getD_eq_getElem?_getD]
      rcases hq : s.data[n]? with _ | c
      · rw [List.getElem?_eq_none_iff] at hq
        omega
      · rfl
    rw [hsome]
    have hmem : s.data.getD n '0' ∈ s.data := by
      rw [List.getD_eq_getElem?_getD]
      rcases hq : s.data[n]? with _ | c
      · rw [List.getElem?_eq_none_iff] at hq
        omega
      · show c ∈ s.data
        exact List.getElem?_mem hq
    rcases hchars _ hmem with h0 | h1c
    · rw [h0]
      rfl
    · rw [h1c]
      rfl
  · have hLlen : ((List.range mVal).reverse.map (fun i =>
        if (ofString s).getD i false then '1' else '0')).length = 233 := by
      rw [List.length_map, List.length_reverse, List.length_range]
      rfl
    rw [List.getElem?_eq_none (by rw [hLlen]; omega),
      List.getElem?_eq_none (by rw [hdl]; omega)]

set_option maxRecDepth 10000 in
/-- Claim C8 witness at the all-zero 233-character string. -/
theorem claim8_witness : serialize (ofString allZeroString) = allZeroString :=
  claim8 allZeroString (by decide) (by decide)


end ONB
